import Mathlib

/-!
Verification of the data-transformation pipeline of `openweather-mqtt`
(`src/openweather_mqtt_2025.py` and `src/openweather_mqtt_forecast_2025.py`).

JSON documents are modelled by the mutual inductive `Doc`/`Entries`/`Elems`:
a document is a scalar, a mapping (association list of string keys, in
insertion order, mirroring a Python `dict`), or a sequence.  Python numbers
(`int`/`float`/`bool`) are modelled exactly by `Int`/`Rat`/`Bool`; the binary
floating-point representation is not modelled, arithmetic is exact.
Functions that can raise an uncaught Python exception return `Option`/`none`.
-/

/-- A JSON scalar as Python sees it (`None`, `bool`, `int`, `float`, `str`).
Floats are modelled as exact rationals. -/
inductive Scalar where
  | null
  | bool (b : Bool)
  | int (n : Int)
  | num (q : Rat)
  | str (s : String)
deriving DecidableEq, Repr

mutual
/-- A nested JSON document: scalar, mapping or sequence. -/
inductive Doc where
  | scalar (s : Scalar)
  | map (kvs : Entries)
  | seq (xs : Elems)
deriving DecidableEq, Repr

/-- The entries of a JSON mapping, in insertion order (a Python `dict`). -/
inductive Entries where
  | nil
  | cons (k : String) (v : Doc) (rest : Entries)
deriving DecidableEq, Repr

/-- The elements of a JSON sequence. -/
inductive Elems where
  | nil
  | cons (v : Doc) (rest : Elems)
deriving DecidableEq, Repr
end

/-- A flat topic map: the dictionary built by `flatten_dict`, modelled as a
list of (path, scalar) entries in Python-dict insertion order. -/
abbrev FlatMap := List (String × Scalar)

/-- The keys of an association list, in order. -/
def keysOf {α : Type} (l : List (String × α)) : List String := l.map Prod.fst

/-- Python `items[k] = v` on a dict: replace the value of an existing key in
place, otherwise append the new entry at the end. -/
def updEntry : FlatMap → String → Scalar → FlatMap
  | [], k, v => [(k, v)]
  | (k1, v1) :: rest, k, v =>
      if k1 = k then (k1, v) :: rest else (k1, v1) :: updEntry rest k v

/-- Python `items.update(sub)` on dicts: fold `updEntry` over `sub`. -/
def updAll (a b : FlatMap) : FlatMap := b.foldl (fun acc kv => updEntry acc kv.1 kv.2) a

/-- The child path of a mapping key: `path + "/" + key`, or just `key` when
the accumulated path is empty (source line 59, the f-string conditional). -/
def childKey (p k : String) : String := if p = "" then k else p ++ "/" ++ k

mutual
/-- `flatten_dict` from `src/openweather_mqtt_2025.py` lines 55-67.
Note the sequence branch (source line 63) appends the separator
unconditionally, even when the accumulated path is empty. -/
def flatten_dict : Doc → String → FlatMap
  | .scalar s, p => [(p, s)]
  | .map kvs, p => flattenEntries kvs p []
  | .seq xs, p => flattenElems xs p 0 []

/-- The `for k, v in data.items()` loop of `flatten_dict`, accumulating into
the `items` dict. -/
def flattenEntries : Entries → String → FlatMap → FlatMap
  | .nil, _, acc => acc
  | .cons k v rest, p, acc =>
      flattenEntries rest p (updAll acc (flatten_dict v (childKey p k)))

/-- The `for i, v in enumerate(data)` loop of `flatten_dict`. -/
def flattenElems : Elems → String → Nat → FlatMap → FlatMap
  | .nil, _, _, acc => acc
  | .cons v rest, p, i, acc =>
      flattenElems rest p (i + 1) (updAll acc (flatten_dict v (p ++ "/" ++ toString i)))
end

mutual
/-- Modelled from the spec: the set of (path, scalar) pairs present in a
document, as an ordered list — each scalar position contributes its
slash-joined path (same path rule as the source) and its scalar value. -/
def docPairs : Doc → String → FlatMap
  | .scalar s, p => [(p, s)]
  | .map kvs, p => docPairsEntries kvs p
  | .seq xs, p => docPairsElems xs p 0

/-- `docPairs` over the entries of a mapping. -/
def docPairsEntries : Entries → String → FlatMap
  | .nil, _ => []
  | .cons k v rest, p => docPairs v (childKey p k) ++ docPairsEntries rest p

/-- `docPairs` over the elements of a sequence. -/
def docPairsElems : Elems → String → Nat → FlatMap
  | .nil, _, _ => []
  | .cons v rest, p, i => docPairs v (p ++ "/" ++ toString i) ++ docPairsElems rest p (i + 1)
end


theorem keysOf_append {α : Type} (a b : List (String × α)) :
    keysOf (a ++ b) = keysOf a ++ keysOf b := by
  simp [keysOf]

theorem updEntry_of_not_mem (a : FlatMap) (k : String) (v : Scalar)
    (h : k ∉ keysOf a) : updEntry a k v = a ++ [(k, v)] := by
  induction a with
  | nil => rfl
  | cons hd tl ih =>
      obtain ⟨k1, v1⟩ := hd
      simp only [keysOf, List.map_cons, List.mem_cons, not_or] at h
      have hne : ¬k1 = k := Ne.symm h.1
      simp only [updEntry, if_neg hne, List.cons_append]
      rw [ih (by simpa [keysOf] using h.2)]

theorem updAll_nil (a : FlatMap) : updAll a [] = a := rfl

theorem updAll_cons (a : FlatMap) (k : String) (v : Scalar) (b : FlatMap) :
    updAll a ((k, v) :: b) = updAll (updEntry a k v) b := rfl

theorem updAll_of_nodup (a b : FlatMap)
    (h : (keysOf a ++ keysOf b).Nodup) : updAll a b = a ++ b := by
  induction b generalizing a with
  | nil => simp [updAll]
  | cons hd tl ih =>
      obtain ⟨k, v⟩ := hd
      have hd2 : List.Disjoint (keysOf a) (keysOf ((k, v) :: tl)) :=
        List.disjoint_of_nodup_append h
      have hk : k ∉ keysOf a := fun hmem => hd2 hmem (by simp [keysOf])
      rw [updAll_cons, updEntry_of_not_mem a k v hk]
      have h2 : (keysOf (a ++ [(k, v)]) ++ keysOf tl).Nodup := by
        rw [keysOf_append]
        simpa [keysOf, List.append_assoc] using h
      rw [ih (a ++ [(k, v)]) h2]
      simp

mutual
theorem flatten_dict_eq_docPairs : ∀ (d : Doc) (p : String),
    (keysOf (docPairs d p)).Nodup → flatten_dict d p = docPairs d p
  | .scalar _, _, _ => rfl
  | .map kvs, p, h => by
      have h2 := flattenEntries_eq kvs p [] (by simpa [docPairs, keysOf] using h)
      simpa [flatten_dict, docPairs] using h2
  | .seq xs, p, h => by
      have h2 := flattenElems_eq xs p 0 [] (by simpa [docPairs, keysOf] using h)
      simpa [flatten_dict, docPairs] using h2

theorem flattenEntries_eq : ∀ (l : Entries) (p : String) (acc : FlatMap),
    (keysOf acc ++ keysOf (docPairsEntries l p)).Nodup →
    flattenEntries l p acc = acc ++ docPairsEntries l p
  | .nil, p, acc, _ => by simp [flattenEntries, docPairsEntries]
  | .cons k v rest, p, acc, h => by
      rw [docPairsEntries, keysOf_append] at h
      have hA : ((keysOf acc ++ keysOf (docPairs v (childKey p k))) ++
          keysOf (docPairsEntries rest p)).Nodup := by
        simpa [List.append_assoc] using h
      have hv := flatten_dict_eq_docPairs v (childKey p k)
        (hA.sublist ((List.sublist_append_right _ _).trans
          (List.sublist_append_left _ _)))
      have hdisj : (keysOf acc ++ keysOf (docPairs v (childKey p k))).Nodup :=
        hA.sublist (List.sublist_append_left _ _)
      rw [flattenEntries, hv, updAll_of_nodup _ _ hdisj]
      have h3 : (keysOf (acc ++ docPairs v (childKey p k)) ++
          keysOf (docPairsEntries rest p)).Nodup := by
        rw [keysOf_append]; exact hA
      rw [flattenEntries_eq rest p _ h3, docPairsEntries]
      simp [List.append_assoc]

theorem flattenElems_eq : ∀ (l : Elems) (p : String) (i : Nat) (acc : FlatMap),
    (keysOf acc ++ keysOf (docPairsElems l p i)).Nodup →
    flattenElems l p i acc = acc ++ docPairsElems l p i
  | .nil, p, i, acc, _ => by simp [flattenElems, docPairsElems]
  | .cons v rest, p, i, acc, h => by
      rw [docPairsElems, keysOf_append] at h
      have hA : ((keysOf acc ++ keysOf (docPairs v (p ++ "/" ++ toString i))) ++
          keysOf (docPairsElems rest p (i + 1))).Nodup := by
        simpa [List.append_assoc] using h
      have hv := flatten_dict_eq_docPairs v (p ++ "/" ++ toString i)
        (hA.sublist ((List.sublist_append_right _ _).trans
          (List.sublist_append_left _ _)))
      have hdisj : (keysOf acc ++ keysOf (docPairs v (p ++ "/" ++ toString i))).Nodup :=
        hA.sublist (List.sublist_append_left _ _)
      rw [flattenElems, hv, updAll_of_nodup _ _ hdisj]
      have h3 : (keysOf (acc ++ docPairs v (p ++ "/" ++ toString i)) ++
          keysOf (docPairsElems rest p (i + 1))).Nodup := by
        rw [keysOf_append]; exact hA
      rw [flattenElems_eq rest p (i + 1) _ h3, docPairsElems]
      simp [List.append_assoc]
end

theorem mem_keysOf_updEntry (a : FlatMap) (k : String) (v : Scalar) (x : String) :
    x ∈ keysOf (updEntry a k v) ↔ x ∈ keysOf a ∨ x = k := by
  induction a with
  | nil => simp [updEntry, keysOf]
  | cons hd tl ih =>
      obtain ⟨k1, v1⟩ := hd
      by_cases hk : k1 = k
      · subst hk
        simp [updEntry, keysOf]
        tauto
      · simp only [updEntry, if_neg hk, keysOf, List.map_cons, List.mem_cons]
        rw [show (List.map Prod.fst (updEntry tl k v)) = keysOf (updEntry tl k v) from rfl]
        rw [ih]
        simp [keysOf]
        tauto

theorem mem_keysOf_updAll (a b : FlatMap) (x : String) :
    x ∈ keysOf (updAll a b) ↔ x ∈ keysOf a ∨ x ∈ keysOf b := by
  induction b generalizing a with
  | nil => simp [updAll, keysOf]
  | cons hd tl ih =>
      obtain ⟨k, v⟩ := hd
      rw [updAll_cons, ih, mem_keysOf_updEntry]
      simp [keysOf]
      tauto

mutual
theorem mem_keysOf_flatten : ∀ (d : Doc) (p : String) (x : String),
    x ∈ keysOf (flatten_dict d p) ↔ x ∈ keysOf (docPairs d p)
  | .scalar _, _, _ => Iff.rfl
  | .map kvs, p, x => by
      rw [flatten_dict, docPairs, mem_keysOf_flattenEntries kvs p [] x]
      simp [keysOf]
  | .seq xs, p, x => by
      rw [flatten_dict, docPairs, mem_keysOf_flattenElems xs p 0 [] x]
      simp [keysOf]

theorem mem_keysOf_flattenEntries : ∀ (l : Entries) (p : String) (acc : FlatMap) (x : String),
    x ∈ keysOf (flattenEntries l p acc) ↔ x ∈ keysOf acc ∨ x ∈ keysOf (docPairsEntries l p)
  | .nil, p, acc, x => by simp [flattenEntries, docPairsEntries, keysOf]
  | .cons k v rest, p, acc, x => by
      rw [flattenEntries, docPairsEntries,
        mem_keysOf_flattenEntries rest p _ x, mem_keysOf_updAll,
        mem_keysOf_flatten v (childKey p k) x, keysOf_append, List.mem_append]
      tauto

theorem mem_keysOf_flattenElems : ∀ (l : Elems) (p : String) (i : Nat) (acc : FlatMap) (x : String),
    x ∈ keysOf (flattenElems l p i acc) ↔ x ∈ keysOf acc ∨ x ∈ keysOf (docPairsElems l p i)
  | .nil, p, i, acc, x => by simp [flattenElems, docPairsElems, keysOf]
  | .cons v rest, p, i, acc, x => by
      rw [flattenElems, docPairsElems,
        mem_keysOf_flattenElems rest p (i + 1) _ x, mem_keysOf_updAll,
        mem_keysOf_flatten v (p ++ "/" ++ toString i) x, keysOf_append, List.mem_append]
      tauto
end

/-- Concatenation of mapping entry lists. -/
def Entries.app : Entries → Entries → Entries
  | .nil, b => b
  | .cons k v r, b => .cons k v (r.app b)

theorem flattenEntries_app : ∀ (a b : Entries) (p : String) (acc : FlatMap),
    flattenEntries (a.app b) p acc = flattenEntries b p (flattenEntries a p acc)
  | .nil, _, _, _ => rfl
  | .cons k v r, b, p, acc => by
      rw [Entries.app, flattenEntries, flattenEntries, flattenEntries_app r b p]

/-- A document in which two distinct scalar positions share the slash-joined
path "a/b": the nested mapping entry a -> b -> 1 and the top-level key
"a/b" -> 2. -/
def docCollide : Doc :=
  .map (.cons "a" (.map (.cons "b" (.scalar (.int 1)) .nil))
    (.cons "a/b" (.scalar (.int 2)) .nil))

/-- C1, counterexample: the claim as stated fails. The document `docCollide`
contains the (path, scalar) pair ("a/b", 1), but `flatten_dict` omits it —
the later dict update for the top-level key "a/b" overwrites the pair coming
from the nested mapping, so the result is not the exact set of pairs present
in the document. -/
theorem claim_c1_counterexample :
    ("a/b", Scalar.int 1) ∈ docPairs docCollide "" ∧
    ("a/b", Scalar.int 1) ∉ flatten_dict docCollide "" := by decide

/-- C1, amended: for every finite, acyclic document whose scalar positions
have pairwise distinct slash-joined paths, `flatten_dict` terminates (it is a
total function) and returns exactly the list of (path, scalar) pairs present
in the document, in traversal order — no extras, no omissions.  (Mapping keys
that contain the separator, or empty keys, can make two positions collide on
one path; a sequence index is always appended as path + "/" + index, even at
the empty path.) -/
theorem claim_c1_flatten_exact (d : Doc) (p : String)
    (h : (keysOf (docPairs d p)).Nodup) :
    flatten_dict d p = docPairs d p :=
  flatten_dict_eq_docPairs d p h

/-- A small sample document with a scalar, a nested mapping and a sequence. -/
def docSample : Doc :=
  .map (.cons "a" (.scalar (.int 1))
    (.cons "b" (.map (.cons "c" (.scalar (.str "x")) .nil))
      (.cons "l" (.seq (.cons (.scalar (.int 7)) (.cons (.scalar .null) .nil))) .nil)))

theorem claim_c1_witness :
    (keysOf (docPairs docSample "")).Nodup ∧
    flatten_dict docSample "" = docPairs docSample "" :=
  ⟨by decide, claim_c1_flatten_exact docSample "" (by decide)⟩

/-- C10: `flatten_dict` emits no key for a position holding an empty mapping
or an empty sequence.  First conjunct: the keys of the result are exactly the
paths of scalar positions (so container positions, in particular empty ones,
never contribute a key, hence never a bus topic).  Second conjunct: flattening
an empty container yields the empty map.  Remaining conjuncts: a mapping entry
or sequence element whose value is an empty container contributes nothing to
the accumulated result, wherever it sits in the document. -/
theorem claim_c10_empty_containers_dropped :
    (∀ (d : Doc) (p x : String),
      x ∈ keysOf (flatten_dict d p) ↔ x ∈ keysOf (docPairs d p))
    ∧ (∀ p : String, flatten_dict (.map .nil) p = [] ∧ flatten_dict (.seq .nil) p = [])
    ∧ (∀ (a b : Entries) (k p : String),
        flatten_dict (.map (a.app (.cons k (.map .nil) b))) p
          = flatten_dict (.map (a.app b)) p
      ∧ flatten_dict (.map (a.app (.cons k (.seq .nil) b))) p
          = flatten_dict (.map (a.app b)) p)
    ∧ (∀ (rest : Elems) (p : String) (i : Nat) (acc : FlatMap),
        flattenElems (.cons (.map .nil) rest) p i acc = flattenElems rest p (i + 1) acc
      ∧ flattenElems (.cons (.seq .nil) rest) p i acc = flattenElems rest p (i + 1) acc) := by
  refine ⟨mem_keysOf_flatten, fun p => ⟨rfl, rfl⟩, fun a b k p => ⟨?_, ?_⟩, fun rest p i acc => ⟨?_, ?_⟩⟩
  · rw [flatten_dict, flatten_dict, flattenEntries_app, flattenEntries_app, flattenEntries]
    rfl
  · rw [flatten_dict, flatten_dict, flattenEntries_app, flattenEntries_app, flattenEntries]
    rfl
  · rw [flattenElems]
    rfl
  · rw [flattenElems]
    rfl

/-- An MQTT message record: topic, payload, retain flag. -/
structure Msg where
  topic : String
  payload : String
  retain : Bool
deriving DecidableEq, Repr

/-- One call to the paho-mqtt client: a batch `publish.multiple`, or a
`publish.single`.  The single call carries the document whose JSON encoding
is published (the text of the encoding is not modelled). -/
inductive PublishCall where
  | multiple (msgs : List Msg)
  | single (topic : String) (payload : Doc) (retain : Bool)
deriving DecidableEq, Repr

/-- Python `str(v)` for the scalars a flat map can hold.  (For floats Python
prints the shortest round-tripping decimal; here the exact rational is
printed — no claim under verification depends on the digits.) -/
def pyStr : Scalar → String
  | .null => "None"
  | .bool true => "True"
  | .bool false => "False"
  | .int n => toString n
  | .num q => toString q
  | .str s => s

/-- The comparison used by `sorted(flat.items())`: Python compares the
(key, value) tuples, which compares the keys first and looks at the values
only on equal keys; a flat map built from a dict has pairwise distinct keys,
so the Python sort coincides with a stable sort by key. -/
def keyLE (a b : String × Scalar) : Prop := a.1 ≤ b.1

instance : DecidableRel keyLE := fun a b => inferInstanceAs (Decidable (a.1 ≤ b.1))

instance : IsTotal (String × Scalar) keyLE := ⟨fun a b => le_total a.1 b.1⟩

instance : IsTrans (String × Scalar) keyLE := ⟨fun _ _ _ h1 h2 => le_trans h1 h2⟩

/-- The message list built by `publish_weather` (flat variant, lines 99-106):
one retained message per flat-map entry, topic = root + "/" + key, payload =
str(value), in ascending key order. -/
def mkMsgs (flat : FlatMap) (root : String) : List Msg :=
  (List.insertionSort keyLE flat).map (fun kv => ⟨root ++ "/" ++ kv.1, pyStr kv.2, true⟩)

/-- `publish_weather` (flat variant, lines 99-117): flatten the document,
build the message list, and hand it to the bus client in one single
`publish.multiple` call. -/
def publish_weather (data : Doc) (root : String) : List PublishCall :=
  [.multiple (mkMsgs (flatten_dict data "") root)]

/-- C5: for a flat topic map of N entries and a topic root, the publisher
produces exactly N messages; they are the image, in ascending key order, of a
permutation of the entries, each message having topic = root + "/" + key,
payload = the string form of the value, and retain = true; and
`publish_weather` submits them to the bus as one single batch call. -/
theorem claim_c5_publish_batch (flat : FlatMap) (root : String) :
    (mkMsgs flat root).length = flat.length
    ∧ (∃ l : FlatMap, l.Perm flat ∧ List.Sorted keyLE l ∧
        mkMsgs flat root = l.map (fun kv => ⟨root ++ "/" ++ kv.1, pyStr kv.2, true⟩))
    ∧ (∀ m ∈ mkMsgs flat root, m.retain = true)
    ∧ (∀ d : Doc, publish_weather d root = [.multiple (mkMsgs (flatten_dict d "") root)]) := by
  refine ⟨?_, ⟨List.insertionSort keyLE flat, List.perm_insertionSort keyLE flat,
    List.sorted_insertionSort keyLE flat, rfl⟩, ?_, fun _ => rfl⟩
  · rw [mkMsgs, List.length_map]
    exact (List.perm_insertionSort keyLE flat).length_eq
  · intro m hm
    rw [mkMsgs] at hm
    obtain ⟨kv, _, hkv⟩ := List.mem_map.mp hm
    rw [← hkv]

/-- Look up a key among mapping entries (first match; a Python dict holds at
most one entry per key). -/
def Entries.lookup? : Entries → String → Option Doc
  | .nil, _ => none
  | .cons k1 v rest, k => if k1 = k then some v else rest.lookup? k

/-- Python `d[k]`: `none` models the raised KeyError (missing key) or
TypeError (string subscript on a non-mapping). -/
def Doc.item? : Doc → String → Option Doc
  | .map kvs, k => kvs.lookup? k
  | _, _ => none

/-- The number of entries of a mapping. -/
def Entries.size : Entries → Nat
  | .nil => 0
  | .cons _ _ rest => rest.size + 1

/-- The number of elements of a sequence. -/
def Elems.size : Elems → Nat
  | .nil => 0
  | .cons _ rest => rest.size + 1

/-- The element of a sequence at a zero-based index. -/
def Elems.get? : Elems → Nat → Option Doc
  | .nil, _ => none
  | .cons v _, 0 => some v
  | .cons _ rest, n + 1 => rest.get? n

/-- Membership of a document in a sequence (Python `x in somelist`). -/
def Elems.has : Elems → Doc → Bool
  | .nil, _ => false
  | .cons v rest, d => v = d || rest.has d

/-- The key list of a mapping, in insertion order. -/
def Entries.keyList : Entries → List String
  | .nil => []
  | .cons k _ rest => k :: rest.keyList

/-- The top-level key list of a document (empty for non-mappings). -/
def docTopKeys : Doc → List String
  | .map kvs => kvs.keyList
  | _ => []

/-- Python truthiness of a JSON value. -/
def truthy : Doc → Bool
  | .scalar .null => false
  | .scalar (.bool b) => b
  | .scalar (.int n) => n != 0
  | .scalar (.num q) => q != 0
  | .scalar (.str s) => s != ""
  | .map .nil => false
  | .map _ => true
  | .seq .nil => false
  | .seq _ => true

/-- Python `len(v)`: defined for mappings, sequences and strings; `none`
models the TypeError raised on numbers and `None`. -/
def pyLen? : Doc → Option Nat
  | .map kvs => some kvs.size
  | .seq xs => some xs.size
  | .scalar (.str s) => some s.length
  | _ => none

/-- Substring test on character lists (Python `sub in s` for strings). -/
def charsContain : List Char → List Char → Bool
  | [], sub => sub.isEmpty
  | c :: rest, sub => sub.isPrefixOf (c :: rest) || charsContain rest sub

/-- Python `k in v`: key membership for mappings, element membership for
sequences, substring test for strings; `none` models the TypeError raised on
non-iterable values. -/
def pyIn? (f : Doc) (k : String) : Option Bool :=
  match f with
  | .map kvs => some (kvs.lookup? k).isSome
  | .seq xs => some (xs.has (.scalar (.str k)))
  | .scalar (.str s) => some (charsContain s.data k.data)
  | .scalar _ => none

/-- A numeric read of a document value: Python `round` accepts int, float and
bool; anything else raises TypeError. -/
def Doc.toNum? : Doc → Option Rat
  | .scalar (.int n) => some (n : Rat)
  | .scalar (.num q) => some q
  | .scalar (.bool b) => some (if b then 1 else 0)
  | _ => none

/-- Python `v[i]` for an integer index: sequence element, or one-character
string for a string; `none` models the IndexError / KeyError / TypeError the
callers catch. -/
def Doc.index? : Doc → Nat → Option Doc
  | .seq xs, i => xs.get? i
  | .scalar (.str s), i => (s.data[i]?).map (fun ch => .scalar (.str (String.mk [ch])))
  | _, _ => none

/-- Round-half-to-even to an integer — the rule of Python `round` (applied
to the exact value; the binary-float representation is not modelled).
Implemented on the numerator and denominator so that it evaluates inside the
kernel. -/
def roundHalfEven (x : Rat) : Int :=
  if 2 * x.num < (2 * Rat.floor x + 1) * (x.den : Int) then Rat.floor x
  else if (2 * Rat.floor x + 1) * (x.den : Int) < 2 * x.num then Rat.floor x + 1
  else if Rat.floor x % 2 = 0 then Rat.floor x else Rat.floor x + 1

/-- Python `round(x, 1)`: round-half-to-even at one decimal place. -/
def round1 (x : Rat) : Rat := mkRat (roundHalfEven (mkRat (10 * x.num) x.den)) 10

theorem ratFloor_eq (x : Rat) : Rat.floor x = ⌊x⌋ := rfl

theorem num_eq_mul_den (x : Rat) : (x.num : Rat) = x * (x.den : Rat) := by
  have hd : ((x.den : Rat)) ≠ 0 := by
    exact_mod_cast x.den_nz
  exact (div_eq_iff hd).mp (Rat.num_div_den x)

theorem mkRat_ten_mul (x : Rat) : mkRat (10 * x.num) x.den = 10 * x := by
  rw [Rat.mkRat_eq_div]
  push_cast
  rw [mul_div_assoc, Rat.num_div_den]

theorem roundHalfEven_close (x : Rat) : |x - (roundHalfEven x : Rat)| ≤ 1 / 2 := by
  have hdpos : (0 : Rat) < (x.den : Rat) := by exact_mod_cast x.pos
  have hnum := num_eq_mul_den x
  have hle : ((⌊x⌋ : Int) : Rat) ≤ x := Int.floor_le x
  have hlt : x < (⌊x⌋ : Rat) + 1 := Int.lt_floor_add_one x
  have hC1 : (2 * x.num < (2 * Rat.floor x + 1) * (x.den : Int))
      ↔ x - (⌊x⌋ : Rat) < 1 / 2 := by
    rw [ratFloor_eq, ← @Int.cast_lt Rat]
    push_cast
    rw [hnum, show (2 : Rat) * (x * (x.den : Rat)) = (2 * x) * (x.den : Rat) from by ring]
    rw [mul_lt_mul_right hdpos]
    constructor <;> intro h <;> linarith
  have hC2 : ((2 * Rat.floor x + 1) * (x.den : Int) < 2 * x.num)
      ↔ 1 / 2 < x - (⌊x⌋ : Rat) := by
    rw [ratFloor_eq, ← @Int.cast_lt Rat]
    push_cast
    rw [hnum, show (2 : Rat) * (x * (x.den : Rat)) = (2 * x) * (x.den : Rat) from by ring]
    rw [mul_lt_mul_right hdpos]
    constructor <;> intro h <;> linarith
  rw [roundHalfEven]
  split_ifs with h1 h2 h3
  · rw [ratFloor_eq, abs_of_nonneg (by linarith)]
    linarith [hC1.mp h1]
  · rw [ratFloor_eq]
    push_cast
    rw [abs_of_nonpos (by linarith)]
    linarith [hC2.mp h2]
  · have hmid : x - (⌊x⌋ : Rat) = 1 / 2 :=
      le_antisymm (not_lt.mp fun hh => h2 (hC2.mpr hh))
        (not_lt.mp fun hh => h1 (hC1.mpr hh))
    rw [ratFloor_eq, abs_of_nonneg (by linarith)]
    linarith
  · have hmid : x - (⌊x⌋ : Rat) = 1 / 2 :=
      le_antisymm (not_lt.mp fun hh => h2 (hC2.mpr hh))
        (not_lt.mp fun hh => h1 (hC1.mpr hh))
    rw [ratFloor_eq]
    push_cast
    rw [abs_of_nonpos (by linarith)]
    linarith

theorem round1_eq_div (x : Rat) :
    round1 x = (roundHalfEven (10 * x) : Rat) / 10 := by
  rw [round1, mkRat_ten_mul, Rat.mkRat_eq_div]
  norm_num

theorem round1_close (t : Rat) : |t - round1 t| ≤ 1 / 20 := by
  have h := roundHalfEven_close (10 * t)
  rw [round1_eq_div]
  have hrw : t - (roundHalfEven (10 * t) : Rat) / 10
      = (10 * t - (roundHalfEven (10 * t) : Rat)) / 10 := by ring
  rw [hrw, abs_div, abs_of_nonneg (by norm_num : (0 : Rat) ≤ 10)]
  linarith

/-- A projected forecast record as built by `build_meteo_json` (forecast
variant, lines 138-141): the rounded temperature and the description. -/
structure Slot where
  temp : Rat
  desc : Doc
deriving DecidableEq, Repr

/-- The record body of one forecast slot: reads `item["main"]["temp"]`
(rounded to one decimal) and `item["weather"][0]["description"]`; `none`
models the IndexError / KeyError / TypeError caught at source line 142. -/
def mkSlot (item : Doc) : Option Slot :=
  (((item.item? "main").bind (fun m => m.item? "temp")).bind Doc.toNum?).bind
    (fun t => (((item.item? "weather").bind (fun w => w.index? 0)).bind
      (fun w0 => w0.item? "description")).map (fun d => ⟨round1 t, d⟩))

/-- One iteration of the offset loop: `item = forecast["list"][idx]` followed
by the record body; any caught error yields `none` (label skipped with a
warning). -/
def slotAt (lv : Doc) (idx : Nat) : Option Slot := (lv.index? idx).bind mkSlot

/-- The offset table hard-coded at source line 134: `mapping = {"0": 0, "1": 8}`. -/
def forecast_offsets : List (String × Nat) := [("0", 0), ("1", 8)]

/-- The forecast part of `build_meteo_json` (lines 132-143): the guard
`forecast and "list" in forecast and len(forecast["list"]) > 0`, then one
(label, record) entry per offset whose extraction succeeds, plus the list of
warned (skipped) labels.  `none` models an uncaught exception raised by the
guard itself. -/
def build_forecast (forecast : Option Doc) :
    Option (List (String × Slot) × List String) :=
  match forecast with
  | none => some ([], [])
  | some f =>
    if truthy f then
      match pyIn? f "list" with
      | none => none
      | some false => some ([], [])
      | some true =>
        match f.item? "list" with
        | none => none
        | some lv =>
          match pyLen? lv with
          | none => none
          | some n =>
            if 0 < n then
              some (forecast_offsets.filterMap
                      (fun ki => (slotAt lv ki.2).map (fun s => (ki.1, s))),
                    forecast_offsets.filterMap
                      (fun ki => if (slotAt lv ki.2).isSome then none else some ki.1))
            else some ([], [])
    else some ([], [])

/-- The payload sub-document of one forecast slot:
`{"temp": ..., "desc": ...}`. -/
def slotDoc (s : Slot) : Doc :=
  .map (.cons "temp" (.scalar (.num s.temp)) (.cons "desc" s.desc .nil))

/-- A well-formed forecast sample with observation time, temperature,
description and wind speed. -/
def sampleItem (t : Rat) : Doc :=
  .map (.cons "dt" (.scalar (.int 1700000000))
    (.cons "main" (.map (.cons "temp" (.scalar (.num t)) .nil))
      (.cons "weather"
          (.seq (.cons (.map (.cons "description" (.scalar (.str "ok")) .nil)) .nil))
        (.cons "wind" (.map (.cons "speed" (.scalar (.num 5)) .nil)) .nil))))

/-- A sequence of n copies of a sample. -/
def repSamples : Nat → Rat → Elems
  | 0, _ => .nil
  | n + 1, t => .cons (sampleItem t) (repSamples n t)

/-- A forecast payload whose "list" holds ten well-formed samples. -/
def forecast10 : Doc := .map (.cons "list" (.seq (repSamples 10 20)) .nil)

/-- The ten-sample sequence used as concrete test data. -/
def elems10 : Elems := repSamples 10 20

/-- C3, counterexample: the claim as stated fails.  The offset table wired
into `build_meteo_json` is `{"0": 0, "1": 8}`, not `{"3h": 0, "1d": 8,
"4d": 32}`; projecting a 10-sample sequence yields the labels "0" and "1",
so no "3h" or "1d" entry is included as the claim requires. -/
theorem claim_c3_counterexample :
    forecast_offsets ≠ [("3h", 0), ("1d", 8), ("4d", 32)]
    ∧ (build_forecast (some forecast10)).map (fun r => r.1.map Prod.fst)
        = some ["0", "1"] := by decide

/-- C3, amended: the offset table is `{"0": 0, "1": 8}`.  For every
non-empty forecast sample sequence the projection completes without raising;
a label appears in the result exactly when the slot extraction at its index
succeeds (index in bounds and every required field present), in which case it
carries the fully populated record, and a label is warned (skipped) exactly
when the extraction fails.  With the source table and a 10-sample sequence of
well-formed samples, both "0" and "1" are included. -/
theorem claim_c3_projection_skips (xs : Elems) (h : xs ≠ Elems.nil) :
    ∃ ents warns,
      build_forecast (some (.map (.cons "list" (.seq xs) .nil))) = some (ents, warns)
      ∧ (∀ label s, (label, s) ∈ ents
          ↔ ∃ idx, (label, idx) ∈ forecast_offsets ∧ slotAt (.seq xs) idx = some s)
      ∧ (∀ label, label ∈ warns
          ↔ ∃ idx, (label, idx) ∈ forecast_offsets ∧ slotAt (.seq xs) idx = none) := by
  have hpos : 0 < xs.size := by
    cases xs with
    | nil => exact absurd rfl h
    | cons v rest => simp [Elems.size]
  refine ⟨forecast_offsets.filterMap
      (fun ki => (slotAt (.seq xs) ki.2).map (fun s => (ki.1, s))),
    forecast_offsets.filterMap
      (fun ki => if (slotAt (.seq xs) ki.2).isSome then none else some ki.1),
    ?_, ?_, ?_⟩
  · simp [build_forecast, truthy, pyIn?, Entries.lookup?, Doc.item?, pyLen?, hpos]
  · intro label s
    constructor
    · intro hmem
      obtain ⟨⟨l2, idx⟩, hin, hf⟩ := List.mem_filterMap.mp hmem
      obtain ⟨a, ha, heq⟩ := Option.map_eq_some'.mp hf
      injection heq with h1 h2
      subst h1
      subst h2
      exact ⟨idx, hin, ha⟩
    · rintro ⟨idx, hin, hs⟩
      exact List.mem_filterMap.mpr ⟨(label, idx), hin, by rw [hs]; rfl⟩
  · intro label
    constructor
    · intro hmem
      obtain ⟨⟨l2, idx⟩, hin, hf⟩ := List.mem_filterMap.mp hmem
      by_cases hsome : (slotAt (.seq xs) idx).isSome
      · rw [if_pos hsome] at hf
        exact absurd hf (by simp)
      · rw [if_neg hsome] at hf
        obtain rfl : l2 = label := by simpa using hf
        exact ⟨idx, hin, Option.not_isSome_iff_eq_none.mp hsome⟩
    · rintro ⟨idx, hin, hnone⟩
      refine List.mem_filterMap.mpr ⟨(label, idx), hin, ?_⟩
      rw [show slotAt (.seq xs) (label, idx).2 = none from hnone]
      rfl

theorem claim_c3_witness :
    (elems10 ≠ Elems.nil)
    ∧ (∃ ents warns,
        build_forecast (some (.map (.cons "list" (.seq elems10) .nil))) = some (ents, warns)
        ∧ (∀ label s, (label, s) ∈ ents
            ↔ ∃ idx, (label, idx) ∈ forecast_offsets ∧ slotAt (.seq elems10) idx = some s)
        ∧ (∀ label, label ∈ warns
            ↔ ∃ idx, (label, idx) ∈ forecast_offsets ∧ slotAt (.seq elems10) idx = none)) :=
  ⟨by decide, claim_c3_projection_skips elems10 (by decide)⟩

/-- C7, counterexample: the claim as stated fails.  A well-formed sample
carrying both an observation timestamp ("dt") and a wind speed produces a
projected record whose keys are exactly ["temp", "desc"]: it contains no
timestamp and no wind-speed field. -/
theorem claim_c7_counterexample :
    ((sampleItem (mkRat 207 10)).item? "dt").isSome = true
    ∧ (((sampleItem (mkRat 207 10)).item? "wind").bind
        (fun w => w.item? "speed")).isSome = true
    ∧ (mkSlot (sampleItem (mkRat 207 10))).map (fun s => docTopKeys (slotDoc s))
        = some ["temp", "desc"] := by decide

/-- C7, amended: every projected forecast entry is the fixed two-field record
`{"temp": ..., "desc": ...}` — temperature rounded to one decimal place with
the round-half-to-even rule (Python `round`, applied uniformly to every
entry) and the sample description; timestamp and wind speed are not included.
The rounded value is an integer number of tenths within 1/20 of the sample
temperature. -/
theorem claim_c7_slot_shape (xs : Elems) (idx : Nat) (s : Slot)
    (h : slotAt (.seq xs) idx = some s) :
    ∃ item t d,
      xs.get? idx = some item
      ∧ ((item.item? "main").bind (fun m => m.item? "temp")).bind Doc.toNum? = some t
      ∧ ((item.item? "weather").bind (fun w => w.index? 0)).bind
          (fun w0 => w0.item? "description") = some d
      ∧ s = ⟨round1 t, d⟩
      ∧ slotDoc s = .map (.cons "temp" (.scalar (.num (round1 t))) (.cons "desc" d .nil))
      ∧ (∃ n : Int, round1 t = mkRat n 10)
      ∧ |t - round1 t| ≤ 1 / 20 := by
  rw [slotAt] at h
  obtain ⟨item, hitem, hslot⟩ := Option.bind_eq_some.mp h
  rw [mkSlot] at hslot
  obtain ⟨t, ht, h2⟩ := Option.bind_eq_some.mp hslot
  obtain ⟨d, hd, heq⟩ := Option.map_eq_some'.mp h2
  exact ⟨item, t, d, hitem, ht, hd, heq.symm, by rw [← heq]; rfl,
    ⟨roundHalfEven (mkRat (10 * t.num) t.den), rfl⟩, round1_close t⟩

theorem claim_c7_witness :
    slotAt (.seq elems10) 0 = some ⟨20, .scalar (.str "ok")⟩
    ∧ (∃ item t d,
        Elems.get? elems10 0 = some item
        ∧ ((item.item? "main").bind (fun m => m.item? "temp")).bind Doc.toNum? = some t
        ∧ ((item.item? "weather").bind (fun w => w.index? 0)).bind
            (fun w0 => w0.item? "description") = some d
        ∧ (⟨20, .scalar (.str "ok")⟩ : Slot) = ⟨round1 t, d⟩
        ∧ slotDoc ⟨20, .scalar (.str "ok")⟩
            = .map (.cons "temp" (.scalar (.num (round1 t))) (.cons "desc" d .nil))
        ∧ (∃ n : Int, round1 t = mkRat n 10)
        ∧ |t - round1 t| ≤ 1 / 20) :=
  ⟨by decide, claim_c7_slot_shape elems10 0 ⟨20, .scalar (.str "ok")⟩ (by decide)⟩

/-- Append one entry at the end of a mapping. -/
def Entries.push : Entries → String → Doc → Entries
  | .nil, k, v => .cons k v .nil
  | .cons k1 v1 rest, k, v => .cons k1 v1 (rest.push k v)

/-- Python `dict.setdefault(k, v)`: insert at the end only when the key is
absent; an existing value is never overwritten. -/
def setdefaultE (kvs : Entries) (k : String) (v : Doc) : Entries :=
  if (kvs.lookup? k).isSome then kvs else kvs.push k v

/-- Replace the value of an existing key in place (the pure image of Python
mutating a sub-dict that the enclosing document references). -/
def Entries.setVal : Entries → String → Doc → Entries
  | .nil, _, _ => .nil
  | .cons k1 v1 rest, k, v =>
      if k1 = k then .cons k1 v rest else .cons k1 v1 (rest.setVal k v)

/-- One precipitation category of the normalization in `fetch_weather`:
`data.setdefault(cat, {})`, then `data[cat].setdefault("1h", 0)` and
`data[cat].setdefault("3h", 0)`.  `none` models the AttributeError raised
when the category is present but not a mapping. -/
def normCat (kvs : Entries) (cat : String) : Option Entries :=
  match (setdefaultE kvs cat (.map .nil)).lookup? cat with
  | some (.map sub) =>
      some ((setdefaultE kvs cat (.map .nil)).setVal cat
        (.map (setdefaultE (setdefaultE sub "1h" (.scalar (.int 0))) "3h"
          (.scalar (.int 0)))))
  | _ => none

/-- The normalization of the flat variant (`src/openweather_mqtt_2025.py`
lines 92-94): rain only. -/
def normalize_rain (d : Doc) : Option Doc :=
  match d with
  | .map kvs => (normCat kvs "rain").map .map
  | _ => none

/-- The normalization of the forecast variant
(`src/openweather_mqtt_forecast_2025.py` lines 77-83): rain, then snow. -/
def normalize_rain_snow (d : Doc) : Option Doc :=
  match d with
  | .map kvs => ((normCat kvs "rain").bind (fun k2 => normCat k2 "snow")).map .map
  | _ => none

/-- Modelled from the spec: what the sub-keys of a normalized precipitation
category must read as — the source value when present, the numeric zero for
an absent "1h" or "3h", nothing for other absent keys. -/
def defaultedLookup (old : Entries) (k : String) : Option Doc :=
  (old.lookup? k).or
    (if k = "1h" ∨ k = "3h" then some (.scalar (.int 0)) else none)

/-- The precipitation substructure a snapshot holds under a category key:
the existing mapping, the empty mapping when the key is absent, `none` when
the value is not a mapping (the normalizer would raise on it). -/
def subEntries (kvs : Entries) (cat : String) : Option Entries :=
  match kvs.lookup? cat with
  | none => some .nil
  | some (.map sub) => some sub
  | some _ => none

theorem lookup_push : ∀ (l : Entries) (k : String) (v : Doc) (k1 : String),
    (l.push k v).lookup? k1 = (l.lookup? k1).or (if k1 = k then some v else none)
  | .nil, k, v, k1 => by
      by_cases h : k = k1
      · subst h
        simp [Entries.push, Entries.lookup?]
      · simp [Entries.push, Entries.lookup?, h, Ne.symm h]
  | .cons k2 v2 rest, k, v, k1 => by
      by_cases h : k2 = k1
      · subst h
        simp [Entries.push, Entries.lookup?]
      · simp only [Entries.push, Entries.lookup?, if_neg h]
        exact lookup_push rest k v k1

theorem lookup_setdefaultE (l : Entries) (k : String) (v : Doc) (k1 : String) :
    (setdefaultE l k v).lookup? k1
      = (l.lookup? k1).or (if k1 = k then some v else none) := by
  rw [setdefaultE]
  by_cases hs : (l.lookup? k).isSome
  · rw [if_pos hs]
    by_cases hk : k1 = k
    · subst hk
      obtain ⟨w, hw⟩ := Option.isSome_iff_exists.mp hs
      rw [hw]
      rfl
    · rw [if_neg hk, Option.or_none]
  · rw [if_neg hs, lookup_push]

theorem lookup_setVal : ∀ (l : Entries) (k : String) (v : Doc) (k1 : String),
    (l.setVal k v).lookup? k1
      = if k1 = k ∧ (l.lookup? k).isSome then some v else l.lookup? k1
  | .nil, k, v, k1 => by simp [Entries.setVal, Entries.lookup?]
  | .cons k2 v2 rest, k, v, k1 => by
      by_cases h2 : k2 = k
      · subst h2
        by_cases h1 : k2 = k1
        · subst h1
          simp [Entries.setVal, Entries.lookup?]
        · simp [Entries.setVal, Entries.lookup?, h1, Ne.symm h1]
      · by_cases h1 : k2 = k1
        · subst h1
          simp [Entries.setVal, Entries.lookup?, h2, Ne.symm h2]
        · simp only [Entries.setVal, if_neg h2, Entries.lookup?, if_neg h1]
          exact lookup_setVal rest k v k1

theorem normCat_spec (kvs : Entries) (cat : String) (sub : Entries)
    (hsub : subEntries kvs cat = some sub) :
    ∃ res, normCat kvs cat = some res
      ∧ (∃ sub2, res.lookup? cat = some (.map sub2)
          ∧ ∀ k, sub2.lookup? k = defaultedLookup sub k)
      ∧ (∀ k, k ≠ cat → res.lookup? k = kvs.lookup? k) := by
  have hcat : (setdefaultE kvs cat (.map .nil)).lookup? cat = some (.map sub) := by
    rw [lookup_setdefaultE, if_pos rfl]
    rw [subEntries] at hsub
    cases hv : kvs.lookup? cat with
    | none => rw [hv] at hsub; cases hsub; rfl
    | some w =>
        rw [hv] at hsub
        cases w with
        | map s => cases hsub; rfl
        | scalar s => exact absurd hsub (by simp)
        | seq s => exact absurd hsub (by simp)
  have hsub2 : ∀ k, (setdefaultE (setdefaultE sub "1h" (.scalar (.int 0))) "3h"
      (.scalar (.int 0))).lookup? k = defaultedLookup sub k := by
    intro k
    rw [lookup_setdefaultE, lookup_setdefaultE, defaultedLookup, Option.or_assoc]
    congr 1
    by_cases h1 : k = "1h"
    · simp [h1]
    · by_cases h3 : k = "3h" <;> simp [h1, h3]
  refine ⟨(setdefaultE kvs cat (.map .nil)).setVal cat
      (.map (setdefaultE (setdefaultE sub "1h" (.scalar (.int 0))) "3h"
        (.scalar (.int 0)))), ?_, ⟨_, ?_, hsub2⟩, ?_⟩
  · rw [normCat, hcat]
  · rw [lookup_setVal, if_pos ⟨rfl, by rw [hcat]; rfl⟩]
  · intro k hk
    rw [lookup_setVal, if_neg (fun hh => hk hh.1), lookup_setdefaultE, if_neg hk,
      Option.or_none]

/-- A snapshot carrying neither rain nor snow. -/
def wNoPrecip : Doc := .map (.cons "dt" (.scalar (.int 1)) .nil)

/-- C6, counterexample: the claim as stated fails for the flat variant.  Its
normalization (lines 92-94 of `src/openweather_mqtt_2025.py`) touches only
"rain": normalizing a snapshot with no "snow" key yields a document that
still has no "snow" substructure, although the claim requires snow =
{"1h": 0, "3h": 0}.  (The rain part is filled as claimed.) -/
theorem claim_c6_counterexample :
    (normalize_rain wNoPrecip).bind (fun d => d.item? "snow") = none
    ∧ normalize_rain wNoPrecip
        = some (.map (.cons "dt" (.scalar (.int 1))
            (.cons "rain" (.map (.cons "1h" (.scalar (.int 0))
              (.cons "3h" (.scalar (.int 0)) .nil))) .nil))) := by decide

/-- C6, amended: normalization returns the same document with precipitation
substructures guaranteed and defaulted without overwriting — but the two
variants differ in scope: the flat variant fills only the "rain" category,
while the forecast variant fills both "rain" and "snow".  For each filled
category the substructure holds keys "1h" and "3h", absent keys default to
numeric zero, existing values are preserved, and all other keys of the
document are untouched. -/
theorem claim_c6_normalizers (kvs : Entries) (rsub ssub : Entries)
    (hr : subEntries kvs "rain" = some rsub)
    (hs : subEntries kvs "snow" = some ssub) :
    (∃ res, normalize_rain (.map kvs) = some (.map res)
      ∧ (∃ s2, res.lookup? "rain" = some (.map s2)
          ∧ ∀ k, s2.lookup? k = defaultedLookup rsub k)
      ∧ (∀ k, k ≠ "rain" → res.lookup? k = kvs.lookup? k))
    ∧ (∃ res, normalize_rain_snow (.map kvs) = some (.map res)
      ∧ (∃ s2, res.lookup? "rain" = some (.map s2)
          ∧ ∀ k, s2.lookup? k = defaultedLookup rsub k)
      ∧ (∃ s2, res.lookup? "snow" = some (.map s2)
          ∧ ∀ k, s2.lookup? k = defaultedLookup ssub k)
      ∧ (∀ k, k ≠ "rain" → k ≠ "snow" → res.lookup? k = kvs.lookup? k)) := by
  obtain ⟨r1, hn1, ⟨s2, hs2, hs2v⟩, hpres1⟩ := normCat_spec kvs "rain" rsub hr
  constructor
  · exact ⟨r1, by simp [normalize_rain, hn1], ⟨s2, hs2, hs2v⟩, hpres1⟩
  · have hs3 : subEntries r1 "snow" = some ssub := by
      rw [subEntries, hpres1 "snow" (by decide)]
      rw [subEntries] at hs
      exact hs
    obtain ⟨r2, hn2, ⟨t2, ht2, ht2v⟩, hpres2⟩ := normCat_spec r1 "snow" ssub hs3
    refine ⟨r2, ?_, ⟨s2, ?_, hs2v⟩, ⟨t2, ht2, ht2v⟩, ?_⟩
    · simp [normalize_rain_snow, hn1, hn2]
    · rw [hpres2 "rain" (by decide)]
      exact hs2
    · intro k hkr hks
      rw [hpres2 k hks, hpres1 k hkr]

/-- The entries of a snapshot with rain = {"1h": 2.5} and no snow. -/
def wRainEntries : Entries :=
  .cons "dt" (.scalar (.int 1))
    (.cons "rain" (.map (.cons "1h" (.scalar (.num (mkRat 25 10))) .nil)) .nil)

theorem claim_c6_witness :
    subEntries wRainEntries "rain" = some (.cons "1h" (.scalar (.num (mkRat 25 10))) .nil)
    ∧ subEntries wRainEntries "snow" = some .nil
    ∧ ((∃ res, normalize_rain (.map wRainEntries) = some (.map res)
        ∧ (∃ s2, res.lookup? "rain" = some (.map s2)
            ∧ ∀ k, s2.lookup? k
                = defaultedLookup (.cons "1h" (.scalar (.num (mkRat 25 10))) .nil) k)
        ∧ (∀ k, k ≠ "rain" → res.lookup? k = wRainEntries.lookup? k))
      ∧ (∃ res, normalize_rain_snow (.map wRainEntries) = some (.map res)
        ∧ (∃ s2, res.lookup? "rain" = some (.map s2)
            ∧ ∀ k, s2.lookup? k
                = defaultedLookup (.cons "1h" (.scalar (.num (mkRat 25 10))) .nil) k)
        ∧ (∃ s2, res.lookup? "snow" = some (.map s2)
            ∧ ∀ k, s2.lookup? k = defaultedLookup .nil k)
        ∧ (∀ k, k ≠ "rain" → k ≠ "snow" → res.lookup? k = wRainEntries.lookup? k))) :=
  ⟨by decide, by decide,
    claim_c6_normalizers wRainEntries _ _ (by decide) (by decide)⟩

/-- The outcome of one HTTP fetch helper call (`fetch_weather` /
`fetch_forecast`): a returned document, the soft failure `None` (non-200
status, or payload lacking the marker field), or a raised exception — e.g. a
requests timeout, which the helpers do not catch. -/
inductive FetchRes where
  | ok (d : Doc)
  | noData
  | exn
deriving DecidableEq, Repr

/-- What one pass of a main loop did: the successful bus calls it made,
whether the `except Exception` branch logged an error, and how long the pass
then slept. -/
structure CycleOut where
  pubs : List PublishCall
  errLogged : Bool
  slept : Nat
deriving DecidableEq, Repr

/-- `weather["dt"]` read as a number, as used in `weather["dt"] > last_dt`;
`none` models the KeyError of a missing key or the TypeError of an
incomparable value, both caught by the loop boundary. -/
def getDt (w : Doc) : Option Rat := (w.item? "dt").bind Doc.toNum?

/-- One pass of the flat variant main loop
(`src/openweather_mqtt_2025.py` lines 126-141): fetch, gate on
`weather and weather["dt"] > last_dt`, update `last_dt` (line 132, before
the publish call of line 133), publish, the body wrapped in
`try/except Exception`, then a constant sleep.  `iv` is UPDATE_INTERVAL,
`root` the topic, `last` the current `last_dt`, `pubOk` whether the
bus accepts the `publish.multiple` call (false: the call raises).
Returns the new `last_dt` and the cycle record. -/
def flat_cycle (iv : Nat) (root : String) (last : Rat) (wres : FetchRes)
    (pubOk : Bool) : Rat × CycleOut :=
  match wres with
  | .exn => (last, ⟨[], true, iv⟩)
  | .noData => (last, ⟨[], false, iv⟩)
  | .ok w =>
    if truthy w then
      match getDt w with
      | none => (last, ⟨[], true, iv⟩)
      | some d =>
        if last < d then
          if pubOk then (d, ⟨publish_weather w root, false, iv⟩)
          else (d, ⟨[], true, iv⟩)
        else (last, ⟨[], false, iv⟩)
    else (last, ⟨[], false, iv⟩)

/-- The flat variant `while True` loop over a schedule of cycle inputs,
threading `last_dt` (initialized by the caller; 0 at process start). -/
def flat_loop (iv : Nat) (root : String) : Rat → List (FetchRes × Bool) → List CycleOut
  | _, [] => []
  | last, (w, p) :: rest =>
      (flat_cycle iv root last w p).2 ::
        flat_loop iv root (flat_cycle iv root last w p).1 rest

/-- Python `d.get(k, default)` on a mapping. -/
def getOr (kvs : Entries) (k : String) (dflt : Doc) : Doc :=
  match kvs.lookup? k with
  | some v => v
  | none => dflt

/-- The forecast sub-document of the payload, in insertion order. -/
def entriesOfSlots : List (String × Slot) → Entries
  | [] => .nil
  | (k, s) :: r => .cons k (slotDoc s) (entriesOfSlots r)

/-- `build_meteo_json` (`src/openweather_mqtt_forecast_2025.py` lines
113-176).  `weather` is the normalized snapshot, `forecast` the forecast
fetch result (None allowed), `now` the value of `int(time.time())`.
Returns the payload document; `none` models an uncaught exception (missing
`sys`/`main`/`weather` fields, a non-numeric temperature, a non-mapping
`rain`/`snow`, or a raise in the forecast guard). -/
def build_meteo_json (weather : Doc) (forecast : Option Doc) (now : Int) :
    Option Doc :=
  match weather with
  | .map wk =>
    match (wk.lookup? "sys").bind (fun s => s.item? "sunrise"),
          (wk.lookup? "sys").bind (fun s => s.item? "sunset"),
          ((wk.lookup? "main").bind (fun m => m.item? "temp")).bind Doc.toNum?,
          ((wk.lookup? "weather").bind (fun w => w.index? 0)).bind
            (fun w0 => w0.item? "description"),
          wk.lookup? "main", wk.lookup? "rain", wk.lookup? "snow" with
    | some sunrise, some sunset, some t, some desc, some (.map mainE),
        some (.map rainE), some (.map snowE) =>
      match build_forecast forecast with
      | none => none
      | some fl =>
        some (.map (.cons "timezone" (getOr wk "timezone" (.scalar .null)) (.cons "current" (.map (.cons "sys" (.map (.cons "sunrise" sunrise (.cons "sunset" sunset .nil))) (.cons "main" (.map (.cons "temp" (.scalar (.num (round1 t))) (.cons "humidity" (getOr mainE "humidity" (.scalar .null)) (.cons "pressure" (getOr mainE "pressure" (.scalar .null)) (.cons "feels_like" (getOr mainE "feels_like" (.scalar .null)) (.cons "temp_min" (getOr mainE "temp_min" (.scalar .null)) (.cons "temp_max" (getOr mainE "temp_max" (.scalar .null)) .nil))))))) (.cons "weather" (.seq (.cons (.map (.cons "description" desc .nil)) .nil)) (.cons "wind" (getOr wk "wind" (.map .nil)) (.cons "clouds" (getOr wk "clouds" (.map .nil)) (.cons "visibility" (getOr wk "visibility" (.scalar .null)) (.cons "rain" (.map (.cons "1h" (getOr rainE "1h" (.scalar (.int 0))) (.cons "3h" (getOr rainE "3h" (.scalar (.int 0))) .nil))) (.cons "snow" (.map (.cons "1h" (getOr snowE "1h" (.scalar (.int 0))) (.cons "3h" (getOr snowE "3h" (.scalar (.int 0))) .nil))) (.cons "weather_full" (getOr wk "weather" (.seq .nil)) .nil)))))))))) (.cons "forecast" (.map (entriesOfSlots fl.1)) (.cons "meta" (.map (.cons "dt" (getOr wk "dt" (.scalar .null)) (.cons "updated_at" (.scalar (.int now)) (.cons "city" (getOr wk "name" (.scalar .null)) .nil)))) .nil)))))
    | _, _, _, _, _, _, _ => none
  | _ => none

/-- The document value a fetch helper returned (`None` for the soft
failure; a raising call never returns a value). -/
def fetchDoc? : FetchRes → Option Doc
  | .ok f => some f
  | _ => none

/-- One pass of the forecast variant main loop
(`src/openweather_mqtt_forecast_2025.py` lines 201-218): fetch weather, then
fetch forecast, then `if weather:` build and publish a single retained JSON
message, the body wrapped in `try/except Exception`, then a constant sleep.
A raised exception in either fetch, in the builder, or in the publish call
(`pubOk = false`) reaches the except branch and ends the pass without
publishing. -/
def forecast_cycle (iv : Nat) (topic : String) (wres fres : FetchRes)
    (pubOk : Bool) (now : Int) : CycleOut :=
  match wres with
  | .exn => ⟨[], true, iv⟩
  | .noData =>
    match fres with
    | .exn => ⟨[], true, iv⟩
    | _ => ⟨[], false, iv⟩
  | .ok w =>
    match fres with
    | .exn => ⟨[], true, iv⟩
    | _ =>
      if truthy w then
        match build_meteo_json w (fetchDoc? fres) now with
        | none => ⟨[], true, iv⟩
        | some payload =>
            if pubOk then ⟨[.single topic payload true], false, iv⟩
            else ⟨[], true, iv⟩
      else ⟨[], false, iv⟩

/-- The forecast variant `while True` loop over a schedule of cycle inputs
(it keeps no state between cycles). -/
def forecast_loop (iv : Nat) (topic : String)
    (ins : List (FetchRes × FetchRes × Bool × Int)) : List CycleOut :=
  ins.map (fun i => forecast_cycle iv topic i.1 i.2.1 i.2.2.1 i.2.2.2)

/-- A well-formed normalized snapshot whose observation timestamp is 0. -/
def wGood : Doc :=
  .map (.cons "dt" (.scalar (.int 0))
    (.cons "sys" (.map (.cons "sunrise" (.scalar (.int 1))
        (.cons "sunset" (.scalar (.int 2)) .nil)))
      (.cons "main" (.map (.cons "temp" (.scalar (.num (mkRat 215 10))) .nil))
        (.cons "weather"
            (.seq (.cons (.map (.cons "description" (.scalar (.str "sun")) .nil)) .nil))
          (.cons "rain" (.map .nil)
            (.cons "snow" (.map .nil) .nil))))))


/-- C2, counterexample: the claim as stated fails in the forecast variant.
Its main loop keeps no LastObservedTimestamp and has no change gate: two
consecutive cycles fetching the same snapshot with dt = 0 — a timestamp not
exceeding the stored value, which the claim initializes to zero — each
produce a publication instead of zero. -/
theorem claim_c2_counterexample :
    getDt wGood = some 0
    ∧ (forecast_loop 300 "home/lcdmeteo"
        [(.ok wGood, .noData, true, 7), (.ok wGood, .noData, true, 8)]).map
          (fun o => o.pubs.length) = [1, 1] := by decide

/-- C2, amended: in the flat-topic variant the gate behaves as claimed: the
stored value never moves backward; a truthy snapshot whose dt strictly
exceeds the stored value is accepted — the stored value becomes dt and (when
the bus call succeeds) the snapshot is published; a snapshot with dt at or
below the stored value yields zero publications and leaves the stored value
unchanged; and any publication arises only from an accepting cycle.  The
flat variant performs no forecast fetch at all, and the forecast variant has
no change gate and publishes on every cycle with weather data. -/
theorem claim_c2_change_gate (iv : Nat) (root : String) (last : Rat)
    (wres : FetchRes) (pubOk : Bool) :
    last ≤ (flat_cycle iv root last wres pubOk).1
    ∧ (∀ w d, wres = .ok w → truthy w = true → getDt w = some d → last < d →
        (flat_cycle iv root last wres pubOk).1 = d
        ∧ (pubOk = true →
            (flat_cycle iv root last wres pubOk).2.pubs = publish_weather w root))
    ∧ (∀ w d, wres = .ok w → getDt w = some d → d ≤ last →
        (flat_cycle iv root last wres pubOk).2.pubs = []
        ∧ (flat_cycle iv root last wres pubOk).1 = last)
    ∧ ((flat_cycle iv root last wres pubOk).2.pubs ≠ [] →
        ∃ w d, wres = .ok w ∧ truthy w = true ∧ getDt w = some d ∧ last < d
          ∧ (flat_cycle iv root last wres pubOk).1 = d) := by
  cases wres with
  | exn =>
      refine ⟨le_refl last, ?_, ?_, ?_⟩
      · intro w d heq
        exact absurd heq (by simp)
      · intro w d heq
        exact absurd heq (by simp)
      · intro hne
        exact absurd rfl hne
  | noData =>
      refine ⟨le_refl last, ?_, ?_, ?_⟩
      · intro w d heq
        exact absurd heq (by simp)
      · intro w d heq
        exact absurd heq (by simp)
      · intro hne
        exact absurd rfl hne
  | ok w =>
      by_cases ht : truthy w
      · cases hd : getDt w with
        | none =>
            have hc : flat_cycle iv root last (.ok w) pubOk = (last, ⟨[], true, iv⟩) := by
              simp [flat_cycle, ht, hd]
            refine ⟨?_, ?_, ?_, ?_⟩
            · rw [hc]
            · intro w2 d heq ht2 hd2
              injection heq with h2
              subst h2
              rw [hd] at hd2
              exact absurd hd2 (by simp)
            · intro w2 d heq hd2
              injection heq with h2
              subst h2
              rw [hd] at hd2
              exact absurd hd2 (by simp)
            · intro hne
              rw [hc] at hne
              exact absurd rfl hne
        | some d0 =>
            by_cases hlt : last < d0
            · cases pubOk with
              | true =>
                  have hc : flat_cycle iv root last (.ok w) true
                      = (d0, ⟨publish_weather w root, false, iv⟩) := by
                    simp [flat_cycle, ht, hd, hlt]
                  refine ⟨?_, ?_, ?_, ?_⟩
                  · rw [hc]
                    exact le_of_lt hlt
                  · intro w2 d heq ht2 hd2 hlt2
                    injection heq with h2
                    subst h2
                    rw [hd] at hd2
                    injection hd2 with h3
                    subst h3
                    exact ⟨by rw [hc], fun _ => by rw [hc]⟩
                  · intro w2 d heq hd2 hle
                    injection heq with h2
                    subst h2
                    rw [hd] at hd2
                    injection hd2 with h3
                    subst h3
                    exact absurd hlt (not_lt.mpr hle)
                  · intro hne
                    exact ⟨w, d0, rfl, ht, hd, hlt, by rw [hc]⟩
              | false =>
                  have hc : flat_cycle iv root last (.ok w) false
                      = (d0, ⟨[], true, iv⟩) := by
                    simp [flat_cycle, ht, hd, hlt]
                  refine ⟨?_, ?_, ?_, ?_⟩
                  · rw [hc]
                    exact le_of_lt hlt
                  · intro w2 d heq ht2 hd2 hlt2
                    injection heq with h2
                    subst h2
                    rw [hd] at hd2
                    injection hd2 with h3
                    subst h3
                    exact ⟨by rw [hc], fun hp => absurd hp (by simp)⟩
                  · intro w2 d heq hd2 hle
                    injection heq with h2
                    subst h2
                    rw [hd] at hd2
                    injection hd2 with h3
                    subst h3
                    exact absurd hlt (not_lt.mpr hle)
                  · intro hne
                    rw [hc] at hne
                    exact absurd rfl hne
            · have hc : flat_cycle iv root last (.ok w) pubOk = (last, ⟨[], false, iv⟩) := by
                simp [flat_cycle, ht, hd, hlt]
              refine ⟨?_, ?_, ?_, ?_⟩
              · rw [hc]
              · intro w2 d heq ht2 hd2 hlt2
                injection heq with h2
                subst h2
                rw [hd] at hd2
                injection hd2 with h3
                subst h3
                exact absurd hlt2 hlt
              · intro w2 d heq hd2 hle
                exact ⟨by rw [hc], by rw [hc]⟩
              · intro hne
                rw [hc] at hne
                exact absurd rfl hne
      · have hc : flat_cycle iv root last (.ok w) pubOk = (last, ⟨[], false, iv⟩) := by
          simp [flat_cycle, ht]
        refine ⟨?_, ?_, ?_, ?_⟩
        · rw [hc]
        · intro w2 d heq ht2 hd2 hlt2
          injection heq with h2
          subst h2
          exact absurd ht2 ht
        · intro w2 d heq hd2 hle
          exact ⟨by rw [hc], by rw [hc]⟩
        · intro hne
          rw [hc] at hne
          exact absurd rfl hne

/-- A minimal truthy snapshot with dt = 5. -/
def wDt5 : Doc := .map (.cons "dt" (.scalar (.int 5)) .nil)

theorem claim_c2_witness :
    (flat_cycle 300 "openweather" 0 (.ok wDt5) true).1 = 5
    ∧ (flat_cycle 300 "openweather" 0 (.ok wDt5) true).2.pubs
        = publish_weather wDt5 "openweather"
    ∧ (flat_cycle 300 "openweather" 5 (.ok wDt5) true).2.pubs = []
    ∧ (flat_cycle 300 "openweather" 5 (.ok wDt5) true).1 = 5 :=
  ⟨((claim_c2_change_gate 300 "openweather" 0 (.ok wDt5) true).2.1 wDt5 5 rfl
      (by decide) (by decide) (by decide)).1,
   ((claim_c2_change_gate 300 "openweather" 0 (.ok wDt5) true).2.1 wDt5 5 rfl
      (by decide) (by decide) (by decide)).2 rfl,
   ((claim_c2_change_gate 300 "openweather" 5 (.ok wDt5) true).2.2.1 wDt5 5 rfl
      (by decide) (by decide)).1,
   ((claim_c2_change_gate 300 "openweather" 5 (.ok wDt5) true).2.2.1 wDt5 5 rfl
      (by decide) (by decide)).2⟩

/-- C9: in the flat variant, `last_dt = weather["dt"]` (line 132) runs
before `publish_weather` (line 133), so when the publish call raises, the
stored timestamp keeps the advanced value and the except branch logs the
error; a later cycle fetching the same dt is gated as stale and publishes
nothing — the failed cycle data is never republished by the next-cycle retry. -/
theorem claim_c9_advance_before_publish (iv : Nat) (root : String) (last : Rat)
    (w : Doc) (d : Rat) (ht : truthy w = true) (hd : getDt w = some d)
    (hlt : last < d) :
    (flat_cycle iv root last (.ok w) false).1 = d
    ∧ (flat_cycle iv root last (.ok w) false).2.errLogged = true
    ∧ (flat_cycle iv root last (.ok w) false).2.pubs = []
    ∧ (flat_cycle iv root d (.ok w) true).2.pubs = []
    ∧ (flat_cycle iv root d (.ok w) true).1 = d := by
  have hc1 : flat_cycle iv root last (.ok w) false = (d, ⟨[], true, iv⟩) := by
    simp [flat_cycle, ht, hd, hlt]
  have hc2 : flat_cycle iv root d (.ok w) true = (d, ⟨[], false, iv⟩) := by
    simp [flat_cycle, ht, hd]
  rw [hc1, hc2]
  exact ⟨rfl, rfl, rfl, rfl, rfl⟩

theorem claim_c9_witness :
    truthy wDt5 = true ∧ getDt wDt5 = some 5 ∧ ((0 : Rat) < 5)
    ∧ ((flat_cycle 300 "openweather" 0 (.ok wDt5) false).1 = 5
      ∧ (flat_cycle 300 "openweather" 0 (.ok wDt5) false).2.errLogged = true
      ∧ (flat_cycle 300 "openweather" 0 (.ok wDt5) false).2.pubs = []
      ∧ (flat_cycle 300 "openweather" 5 (.ok wDt5) true).2.pubs = []
      ∧ (flat_cycle 300 "openweather" 5 (.ok wDt5) true).1 = 5) :=
  ⟨by decide, by decide, by decide,
    claim_c9_advance_before_publish 300 "openweather" 0 wDt5 5
      (by decide) (by decide) (by decide)⟩

theorem flat_cycle_slept (iv : Nat) (root : String) (last : Rat)
    (wres : FetchRes) (pubOk : Bool) :
    (flat_cycle iv root last wres pubOk).2.slept = iv := by
  cases wres with
  | exn => rfl
  | noData => rfl
  | ok w =>
      by_cases ht : truthy w
      · cases hd : getDt w with
        | none => simp [flat_cycle, ht, hd]
        | some d =>
            by_cases hlt : last < d
            · cases pubOk <;> simp [flat_cycle, ht, hd, hlt]
            · simp [flat_cycle, ht, hd, hlt]
      · simp [flat_cycle, ht]

theorem forecast_cycle_slept (iv : Nat) (topic : String) (wres fres : FetchRes)
    (pubOk : Bool) (now : Int) :
    (forecast_cycle iv topic wres fres pubOk now).slept = iv := by
  cases wres with
  | exn => rfl
  | noData => cases fres <;> rfl
  | ok w =>
      cases fres with
      | exn => rfl
      | noData =>
          by_cases ht : truthy w
          · cases hb : build_meteo_json w (fetchDoc? .noData) now with
            | none => simp [forecast_cycle, ht, hb]
            | some p => cases pubOk <;> simp [forecast_cycle, ht, hb]
          · simp [forecast_cycle, ht]
      | ok f =>
          by_cases ht : truthy w
          · cases hb : build_meteo_json w (fetchDoc? (.ok f)) now with
            | none => simp [forecast_cycle, ht, hb]
            | some p => cases pubOk <;> simp [forecast_cycle, ht, hb]
          · simp [forecast_cycle, ht]

/-- C8: both main loops process every scheduled cycle — the trace is as long
as the input schedule, with no terminal state other than exhausting it — and
every cycle ends by sleeping the same constant configured interval,
regardless of success or failure; a raised fetch error reaches the except
branch, which logs it, instead of exiting the process. -/
theorem claim_c8_cycles_always_sleep :
    (∀ (iv : Nat) (root : String) (last : Rat) (ins : List (FetchRes × Bool)),
        (flat_loop iv root last ins).length = ins.length
      ∧ ∀ o ∈ flat_loop iv root last ins, o.slept = iv)
    ∧ (∀ (iv : Nat) (topic : String) (ins : List (FetchRes × FetchRes × Bool × Int)),
        (forecast_loop iv topic ins).length = ins.length
      ∧ ∀ o ∈ forecast_loop iv topic ins, o.slept = iv)
    ∧ (∀ (iv : Nat) (root : String) (last : Rat) (p : Bool),
        (flat_cycle iv root last .exn p).2.errLogged = true)
    ∧ (∀ (iv : Nat) (topic : String) (fres : FetchRes) (p : Bool) (n : Int),
        (forecast_cycle iv topic .exn fres p n).errLogged = true)
    ∧ (∀ (iv : Nat) (topic : String) (w : Doc) (p : Bool) (n : Int),
        (forecast_cycle iv topic (.ok w) .exn p n).errLogged = true) := by
  refine ⟨?_, ?_, fun _ _ _ _ => rfl, fun _ _ _ _ _ => rfl, fun _ _ _ _ _ => rfl⟩
  · intro iv root last ins
    induction ins generalizing last with
    | nil => exact ⟨rfl, fun o ho => absurd ho (by simp [flat_loop])⟩
    | cons hd tl ih =>
        obtain ⟨w, p⟩ := hd
        refine ⟨?_, ?_⟩
        · rw [flat_loop, List.length_cons, List.length_cons, (ih _).1]
        · intro o ho
          rw [flat_loop] at ho
          rcases List.mem_cons.mp ho with h | h
          · rw [h]
            exact flat_cycle_slept iv root last w p
          · exact (ih _).2 o h
  · intro iv topic ins
    refine ⟨by simp [forecast_loop], ?_⟩
    intro o ho
    rw [forecast_loop] at ho
    obtain ⟨i, hi, heq⟩ := List.mem_map.mp ho
    rw [← heq]
    exact forecast_cycle_slept iv topic i.1 i.2.1 i.2.2.1 i.2.2.2

theorem claim_c8_witness :
    (flat_loop 300 "openweather" 0 [(.exn, true), (.ok wDt5, true)]).length = 2
    ∧ (flat_cycle 300 "openweather" 0 .exn true).2.slept = 300 :=
  ⟨(claim_c8_cycles_always_sleep.1 300 "openweather" 0
      [(.exn, true), (.ok wDt5, true)]).1,
   (claim_c8_cycles_always_sleep.1 300 "openweather" 0
      [(.exn, true), (.ok wDt5, true)]).2
     (flat_cycle 300 "openweather" 0 .exn true).2 (by decide)⟩

/-- C4: in the forecast variant, a cycle whose weather fetch succeeds but
whose forecast fetch raises (e.g. a requests timeout) publishes nothing at
all — the exception reaches the loop boundary before `build_meteo_json` and
`publish_json` run, so the current-weather data is not published that cycle,
although the loop does not crash (the error is logged and the constant sleep
follows, so the next scheduled cycle runs normally).  Had the forecast call
failed softly (non-200 status or invalid payload, returning None), the
current-weather data would have been published. -/
theorem claim_c4_timeout_aborts_cycle :
    (forecast_cycle 300 "home/lcdmeteo" (.ok wGood) .exn true 7).pubs = []
    ∧ (forecast_cycle 300 "home/lcdmeteo" (.ok wGood) .exn true 7).errLogged = true
    ∧ (forecast_cycle 300 "home/lcdmeteo" (.ok wGood) .exn true 7).slept = 300
    ∧ (forecast_cycle 300 "home/lcdmeteo" (.ok wGood) .noData true 7).pubs.length = 1 := by
  decide
